import Mathlib

/-!
Verification development for the executive-ai-assistant repository.

The definitions below are a shallow embedding of the repository source:

* `eaia/main/graph-consolidation.py` — the routing functions
  `route_after_triage`, `take_action`, `enter_after_human` and the
  compiled state-machine graph `build_memory_enhanced_graph`;
* `eaia/memory-module.py` — namespaces and memory persistence
  (`get_memory_namespace`, `process_email_for_memory`,
  `retrieve_relevant_memories`);
* `eaia/memory.py` — the email-memory store
  (`process_email_for_memory`);
* `eaia/enhanced-reflection.py` — `update_general`;
* `consolidated/Old files/modified_human_inbox.py` — `send_message`;
* `eaia/main/draft-response-consolidation.py` — the retry loop of
  `draft_response`.

Python exceptions caught by the enclosing `try/except` blocks are embedded
as the fallback value those handlers return; calls into external services
(the LLM, the vector store, the Gmail API) are abstracted as function
parameters, and store writes are reified as explicit lists of put
operations so that frame conditions can be stated.
-/

namespace Eaia

/-- A tool call attached to an LLM message: the dictionary
`{"name": ..., "id": ..., "args": ...}` of the source, restricted to the
fields the routing code reads. -/
structure ToolCall where
  name : String
  id : String
  deriving DecidableEq, Repr

/-- The last element of the state's message list, as the routing code sees
it.  `base` is a `langchain` `BaseMessage` instance carrying its
`tool_calls` list; `raw` is any other object (for example a plain dict),
whose `tool_calls` attribute access either yields a list (`some`) or
raises `AttributeError` (`none`). -/
inductive Msg where
  | base : List ToolCall → Msg
  | raw : Option (List ToolCall) → Msg
  deriving DecidableEq, Repr

/-- Reading `.tool_calls` off a message object: a `BaseMessage` always has
the attribute; a raw object may not. -/
def toolCallsOf : Msg → Option (List ToolCall)
  | .base tcs => some tcs
  | .raw o => o

/-- `route_after_triage` (graph-consolidation.py, lines 39-57).  The state
is read only through `state["triage"].response`; `none` stands for a state
where that access raises (missing key or attribute), which the
`except` handler turns into `"notify"`. -/
def route_after_triage (triage : Option String) : String :=
  match triage with
  | some r =>
    if r = "email" then "draft_response"
    else if r = "no" then "mark_as_read_node"
    else if r = "notify" then "notify"
    else if r = "question" then "draft_response"
    else "notify"
  | none => "notify"

/-- The dispatch on `tool_call["name"]` inside `take_action`
(graph-consolidation.py, lines 80-94). -/
def takeActionName (n : String) : String :=
  if n = "Question" then "send_message"
  else if n = "ResponseEmailDraft" then "rewrite"
  else if n = "Ignore" then "mark_as_read_node"
  else if n = "MeetingAssistant" then "find_meeting_time"
  else if n = "SendCalendarInvite" then "send_cal_invite"
  else if n = "ManageMemory" ∨ n = "SearchMemory" then "process_memory_node"
  else "bad_tool_name"

/-- `take_action` (graph-consolidation.py, lines 60-97).  An empty message
list (`IndexError`), a last message without a `tool_calls` attribute
(`AttributeError`) and a tool-call list whose length is not one (the
raised `ValueError`) all land in the `except` handler, which returns
`"bad_tool_name"`. -/
def take_action (messages : List Msg) : String :=
  match messages.getLast? with
  | none => "bad_tool_name"
  | some prediction =>
    match toolCallsOf prediction with
    | none => "bad_tool_name"
    | some [tool_call] => takeActionName tool_call.name
    | some _ => "bad_tool_name"

/-- The single tool call of the last message, when the last message exists,
has a `tool_calls` attribute and that list has exactly one element. -/
def lastSingleToolCall (messages : List Msg) : Option ToolCall :=
  match messages.getLast? with
  | none => none
  | some m =>
    match toolCallsOf m with
    | some [tc] => some tc
    | _ => none

/-- `enter_after_human` (graph-consolidation.py, lines 173-204).
`state.get("messages") or []` makes a missing message list empty; with an
empty list the code returns `"mark_as_read_node"` when the triage response
is `"notify"` and otherwise raises (caught: `"draft_response"`).  A last
message that is a `BaseMessage` instance matches the
`isinstance(last_message, (ToolMessage, HumanMessage, BaseMessage))` test
and yields `"draft_response"`; for any other object the code reads
`last_message.tool_calls[0]` — a missing attribute or empty list raises
(caught: `"draft_response"`) — and dispatches on the tool-call name with
`"draft_response"` for an unknown name. -/
def enter_after_human (triage : Option String) (messages : List Msg) : String :=
  match messages.getLast? with
  | none =>
    match triage with
    | some r => if r = "notify" then "mark_as_read_node" else "draft_response"
    | none => "draft_response"
  | some last_message =>
    match last_message with
    | .base _ => "draft_response"
    | .raw none => "draft_response"
    | .raw (some []) => "draft_response"
    | .raw (some (execute :: _)) =>
      if execute.name = "ResponseEmailDraft" then "send_email_node"
      else if execute.name = "SendCalendarInvite" then "send_cal_invite_node"
      else if execute.name = "Ignore" then "mark_as_read_node"
      else if execute.name = "Question" then "draft_response"
      else "draft_response"

/-- The nodes of the state-machine graph.  Each constructor is named after
the string `langgraph` derives from the added function
(`graph_builder.add_node(f)` registers `f` under its Python name);
`END` is the library's terminal marker. -/
inductive GNode where
  | human_node
  | triage_input
  | draft_response
  | send_message
  | rewrite
  | mark_as_read_node
  | send_email_draft
  | send_email_node
  | bad_tool_name
  | notify
  | send_cal_invite_node
  | send_cal_invite
  | process_memory_node
  | find_meeting_time
  | END
  deriving DecidableEq, Fintype, Repr

/-- A compiled graph: its entry point and its directed edges. -/
structure CompiledGraph where
  entry : GNode
  edges : List (GNode × GNode)

/-- `build_memory_enhanced_graph` (graph-consolidation.py, lines 290-326).
Direct edges come from the `add_edge` calls; a conditional edge
(`add_conditional_edges(n, f)`) contributes one edge from `n` to every
label in the routing function `f`'s declared `Literal[...]` return type
(`route_after_triage`: three labels, `take_action`: seven,
`enter_after_human`: four); `set_entry_point("triage_input")` fixes the
entry. -/
def build_memory_enhanced_graph : CompiledGraph where
  entry := .triage_input
  edges :=
    [ (.triage_input, .draft_response)
    , (.triage_input, .mark_as_read_node)
    , (.triage_input, .notify)
    , (.draft_response, .send_message)
    , (.draft_response, .rewrite)
    , (.draft_response, .mark_as_read_node)
    , (.draft_response, .find_meeting_time)
    , (.draft_response, .send_cal_invite)
    , (.draft_response, .process_memory_node)
    , (.draft_response, .bad_tool_name)
    , (.send_message, .human_node)
    , (.send_cal_invite, .human_node)
    , (.find_meeting_time, .draft_response)
    , (.bad_tool_name, .draft_response)
    , (.send_cal_invite_node, .draft_response)
    , (.send_email_node, .mark_as_read_node)
    , (.rewrite, .send_email_draft)
    , (.send_email_draft, .human_node)
    , (.mark_as_read_node, .END)
    , (.notify, .human_node)
    , (.process_memory_node, .draft_response)
    , (.human_node, .mark_as_read_node)
    , (.human_node, .draft_response)
    , (.human_node, .send_email_node)
    , (.human_node, .send_cal_invite_node)
    ]

/-- A walk through the graph from `a` to `c` none of whose visited
successors is the node `avoid`: the paths that never pass through
`avoid` after leaving `a`. -/
inductive AvoidingPath (g : CompiledGraph) (avoid : GNode) : GNode → GNode → Prop where
  | refl (a : GNode) : AvoidingPath g avoid a a
  | step (a b c : GNode) : (a, b) ∈ g.edges → b ≠ avoid →
      AvoidingPath g avoid b c → AvoidingPath g avoid a c

/-- In the compiled graph, the only edges into `send_email_node` and
`send_cal_invite_node` leave `human_node`. -/
lemma send_nodes_only_after_human (a b : GNode)
    (hab : (a, b) ∈ build_memory_enhanced_graph.edges)
    (hb : b = GNode.send_email_node ∨ b = GNode.send_cal_invite_node) :
    a = GNode.human_node := by
  revert hab hb
  revert a b
  decide

/-- A walk that avoids `human_node` and ends at one of the two sending
nodes can only have started there, or at `human_node` itself. -/
lemma avoiding_path_to_send_node (a c : GNode)
    (h : AvoidingPath build_memory_enhanced_graph GNode.human_node a c)
    (hc : c = GNode.send_email_node ∨ c = GNode.send_cal_invite_node) :
    a = c ∨ a = GNode.human_node := by
  induction h with
  | refl a => exact Or.inl rfl
  | step a b c hab hbne _ ih =>
    rcases ih hc with hbc | hbh
    · subst hbc
      exact Or.inr (send_nodes_only_after_human a b hab hc)
    · exact absurd hbh hbne

/-- A value stored in the memory store: the dictionaries the source passes
to `store.aput` map string keys to strings or booleans. -/
inductive MemValue where
  | s : String → MemValue
  | b : Bool → MemValue
  deriving DecidableEq, Repr

/-- One `store.aput(namespace, key, value)` call, reified.  `ns` is the
namespace tuple, written as a list of its components. -/
structure PutOp where
  ns : List String
  key : String
  value : List (String × MemValue)
  deriving DecidableEq, Repr

/-- The parts of the runtime configuration the memory code reads:
`config["configurable"].get("user_id", ...)` and
`config["configurable"].get("assistant_id", ...)`; `none` stands for an
absent key. -/
structure Config where
  user_id : Option String
  assistant_id : Option String
  deriving DecidableEq, Repr

/-- `config.get("configurable", {}).get("user_id", "default_user")`. -/
def configUserId (config : Config) : String :=
  config.user_id.getD "default_user"

/-- `config.get("configurable", {}).get("assistant_id", "default")`. -/
def configAssistantId (config : Config) : String :=
  config.assistant_id.getD "default"

/-- `get_memory_namespace` (memory-module.py, lines 62-75): the namespace
tuple `(assistant_id, store_type, user_id)`. -/
def get_memory_namespace (config : Config) (store_type : String) : List String :=
  [configAssistantId config, store_type, configUserId config]

/-- `ContactInfo` (memory-module.py, lines 24-30). -/
structure ContactInfo where
  name : String
  email : Option String
  company : Option String
  role : Option String
  relationship : Option String
  deriving DecidableEq, Repr

/-- `EmailPreference` (memory-module.py, lines 33-37); the confidence score
is kept as a rational in `[0, 1]`. -/
structure EmailPreference where
  type : String
  description : String
  confidence : ℚ
  deriving DecidableEq, Repr

/-- `ConversationSummary` (memory-module.py, lines 40-46). -/
structure ConversationSummary where
  subject : String
  participants : List String
  key_points : List String
  action_items : Option (List String)
  follow_up_needed : Bool
  deriving DecidableEq, Repr

/-- Python `str` of a boolean. -/
def pyBool (b : Bool) : String := if b then "True" else "False"

/-- Python `s.lower().replace(" ", "_")` on an ASCII string: each character
lower-cased and each space turned into an underscore. -/
def lowerUnderscore (s : String) : String :=
  String.mk (s.data.map (fun c => if c = ' ' then '_' else c.toLower))

/-- The `content` string the conversation summary is stored under
(memory-module.py, lines 273-278): Python truthiness makes the
action-items line disappear for `None` and for an empty list. -/
def summaryContent (subject : String) (summary : ConversationSummary) : String :=
  "Email thread: " ++ subject ++ "\n" ++
  "Key points: " ++ String.intercalate ", " summary.key_points ++ "\n" ++
  (match summary.action_items with
   | some items =>
     if items = [] then ""
     else "Action items: " ++ String.intercalate ", " items ++ "\n"
   | none => "") ++
  "Follow-up needed: " ++ pyBool summary.follow_up_needed

namespace MemoryModule

/-- `process_email_for_memory` (memory-module.py, lines 254-314), with the
LLM extraction steps abstracted: `summary`, `contacts`, `preferences` and
`extracted_memories` are the results the three `create_thread_extractor`
calls and the background memory manager return, `dumpContact` and
`dumpPreference` stand for pydantic `model_dump_json`, and `freshKey n`
is the n-th `str(uuid.uuid4())` the call draws.  The value is the list of
`store.aput` calls the function performs, in order.  (The source guards
the contact and preference loops with `if contacts:` / `if preferences:`;
iterating over the empty list is the same.) -/
def process_email_for_memory (email_subject : String)
    (summary : ConversationSummary) (contacts : List ContactInfo)
    (preferences : List EmailPreference) (extracted_memories : List String)
    (config : Config) (dumpContact : ContactInfo → String)
    (dumpPreference : EmailPreference → String)
    (freshKey : Nat → String) : List PutOp :=
  let memories_namespace := get_memory_namespace config "memories"
  [ { ns := memories_namespace, key := freshKey 0,
      value := [("content", .s (summaryContent email_subject summary))] } ]
  ++ contacts.map (fun contact =>
      { ns := get_memory_namespace config "contacts",
        key := "contact_" ++ lowerUnderscore contact.name,
        value := [("content", .s (dumpContact contact))] })
  ++ preferences.map (fun preference =>
      { ns := get_memory_namespace config "preferences",
        key := "preference_" ++ lowerUnderscore preference.type,
        value := [("content", .s (dumpPreference preference))] })
  ++ extracted_memories.enum.map (fun p =>
      { ns := memories_namespace, key := freshKey (p.1 + 1),
        value := [("content", .s p.2)] })

/-- An item returned by `store.asearch`; `content` is what
`item.value.get("content", "")` reads, `none` when the key is absent. -/
structure StoreItem where
  content : Option String
  deriving DecidableEq, Repr

/-- The search side of the external store: the ranked results a namespace
holds for a query, before the limit is applied. -/
abbrev SearchFn := List String → String → List StoreItem

/-- `store.asearch(namespace, query=query, limit=limit)`: the external
store returns at most `limit` of the ranked results. -/
def asearch (store : SearchFn) (ns : List String) (query : String)
    (limit : Nat) : List StoreItem :=
  (store ns query).take limit

/-- `retrieve_relevant_memories` (memory-module.py, lines 334-372):
searches the memories, contacts and preferences namespaces and formats
the three result lists in that order, each entry prefixed according to
the namespace it came from.  (The source guards each formatting loop with
an `if`; looping over the empty list is the same.) -/
def retrieve_relevant_memories (store : SearchFn) (query : String)
    (config : Config) (limit : Nat) : List String :=
  let memories := asearch store (get_memory_namespace config "memories") query limit
  let contacts := asearch store (get_memory_namespace config "contacts") query limit
  let preferences := asearch store (get_memory_namespace config "preferences") query limit
  memories.map (fun memory => "Memory: " ++ memory.content.getD "")
  ++ contacts.map (fun contact => "Contact: " ++ contact.content.getD "")
  ++ preferences.map (fun preference => "Preference: " ++ preference.content.getD "")

end MemoryModule

namespace EaiaMemory

/-- The fields of the email dict that `process_email_for_memory`
(memory.py) reads; `id` is `none` when the key is absent. -/
structure EmailData where
  id : Option String
  subject : String
  from_email : String
  to_email : String
  page_content : String
  deriving DecidableEq, Repr

/-- `process_email_for_memory` (memory.py, lines 24-63): stores one
email-memory record under the namespace `(assistant_id, "email_memory")`
with the email id as key.  The value is the list of `store.aput` calls
performed. -/
def process_email_for_memory (email : EmailData) (config : Config) :
    List PutOp :=
  let assistant_id := configAssistantId config
  [ { ns := [assistant_id, "email_memory"],
      key := email.id.getD "unknown",
      value :=
        [ ("subject", .s email.subject)
        , ("from", .s email.from_email)
        , ("to", .s email.to_email)
        , ("content", .s email.page_content)
        , ("processed", .b true) ] } ]

end EaiaMemory

/-- `GeneralResponse` (enhanced-reflection.py, lines 31-34): the structured
output of the feedback model. -/
structure GeneralResponse where
  logic : String
  update_prompt : Bool
  new_prompt : String
  deriving DecidableEq, Repr

/-- `ReflectionState` (enhanced-reflection.py, lines 24-28), restricted to
the fields `update_general` reads; the message history enters only the
LLM prompt and is kept as opaque strings. -/
structure ReflectionState where
  messages : List String
  feedback : String
  prompt_key : String
  assistant_key : String
  instructions : String
  deriving DecidableEq, Repr

/-- `update_general` (enhanced-reflection.py, lines 74-113), with the
reflection model abstracted: `output` is the `GeneralResponse` the model
returns.  The value is the list of `store.aput` calls the function
performs: when `output.update_prompt` holds, the new prompt is written
under `(assistant_key,)` / `prompt_key` and a system-prompts memory entry
is written under `(assistant_key, "memories", "system_prompts")`;
otherwise nothing is written. -/
def update_general (state : ReflectionState) (output : GeneralResponse) :
    List PutOp :=
  let ns := [state.assistant_key]
  let key := state.prompt_key
  if output.update_prompt then
    [ { ns := ns, key := key, value := [("data", .s output.new_prompt)] }
    , { ns := [state.assistant_key, "memories", "system_prompts"],
        key := "prompt_" ++ key ++ "_" ++ state.instructions.take 20,
        value :=
          [ ("content", .s ("System prompt for " ++ key ++
              " was updated based on feedback: \x27" ++ state.feedback.take 100 ++
              "...\x27 The new prompt is: " ++ output.new_prompt.take 100 ++ "...")) ] } ]
  else []

namespace HumanInbox

/-- The tool-call fields `send_message` (modified_human_inbox.py) extracts
from the last message of the state before interrupting. -/
structure SendMessageCtx where
  tool_call_id : String
  tool_call_name : String
  msg_id : String
  deriving DecidableEq, Repr

/-- The message `send_message` returns in its state update: a tool message
for a free-text human response, or an assistant message carrying a single
`Ignore` tool call for a rejection. -/
inductive InboxMsg where
  | tool (name : String) (content : String) (tool_call_id : String)
  | assistant (content : String) (id : String) (tool_calls : List ToolCall)
  deriving DecidableEq, Repr

/-- The response handling of `send_message` (modified_human_inbox.py,
lines 98-188) after the interrupt resumes: dispatch on
`response["type"]`.  A `"response"` type yields a tool message, an
`"ignore"` type yields an assistant message with an `Ignore` tool call,
and every other type reaches `raise ValueError(...)` — embedded as
`none`, no state update.  The memory side effects (`save_email`,
`process_email_for_memory`, the reflection run) do not change the
returned update and are elided. -/
def send_message (ctx : SendMessageCtx) (response_type : String)
    (response_args : String) : Option InboxMsg :=
  if response_type = "response" then
    some (.tool ctx.tool_call_name response_args ctx.tool_call_id)
  else if response_type = "ignore" then
    some (.assistant "" ctx.msg_id [{ name := "Ignore", id := ctx.tool_call_id }])
  else
    none

end HumanInbox

namespace DraftResponse

/-- An LLM response in `draft_response`: what the routing reads is its
list of tool calls. -/
structure DraftResp where
  tool_calls : List ToolCall
  deriving DecidableEq, Repr

/-- A message of the conversation `draft_response` sends to the model. -/
inductive ChatMsg where
  | user (content : String)
  | ai (r : DraftResp)
  deriving DecidableEq, Repr

/-- The user message appended after a failed attempt
(draft-response-consolidation.py, line 190). -/
def retryPrompt : ChatMsg := .user "Please call a valid tool call."

/-- The `while i < 5` retry loop of `draft_response`
(draft-response-consolidation.py, lines 185-192), with the model
abstracted as a function from the conversation so far to its response.
`fuel` is the number of retries still permitted after the current
invocation (`4 - i` on entry to the loop body); the result is the final
response together with the number of model invocations made.  At
`fuel = 0` (`i = 4`) the loop makes its fifth and last invocation and
exits with that response whether or not it carries exactly one tool
call. -/
def draftLoopGo (model : List ChatMsg → DraftResp) :
    Nat → List ChatMsg → DraftResp × Nat
  | 0, messages => (model messages, 1)
  | fuel + 1, messages =>
    let response := model messages
    if response.tool_calls.length = 1 then (response, 1)
    else
      let rest := draftLoopGo model fuel (messages ++ [retryPrompt])
      (rest.1, rest.2 + 1)

/-- The state update `draft_response` returns:
`{"draft": response, "messages": [response]}`. -/
structure DraftUpdate where
  draft : DraftResp
  messages : List DraftResp
  deriving DecidableEq, Repr

/-- The tail of `draft_response`
(draft-response-consolidation.py, lines 183-194): run the retry loop on
the assembled conversation (starting with `i = 0`, so up to four retries
after the first invocation) and return the last response as the draft,
appended to the message history. -/
def draft_response (model : List ChatMsg → DraftResp)
    (messages : List ChatMsg) : DraftUpdate :=
  let response := (draftLoopGo model 4 messages).1
  { draft := response, messages := [response] }

end DraftResponse

/-- Modelled from the spec: the `RespondTo` triage schema lives in
`eaia/schemas.py`, which is not among the source files; the spec states
that triage classifies an email into the three categories no-action,
needs-reply and notify-only, which the triage prompt instructs the model
to emit as `no`, `email` and `notify`. -/
inductive RespondTo where
  | no
  | email
  | notify
  deriving DecidableEq, Repr

/-- The response string a `RespondTo` classification carries. -/
def RespondTo.response : RespondTo → String
  | .no => "no"
  | .email => "email"
  | .notify => "notify"

/-- `take_action` is the name dispatch applied to the single tool call of
the last message, with `"bad_tool_name"` when no such single tool call
exists. -/
lemma take_action_eq (messages : List Msg) :
    take_action messages =
      match lastSingleToolCall messages with
      | some tc => takeActionName tc.name
      | none => "bad_tool_name" := by
  cases hm : messages.getLast? with
  | none => simp [take_action, lastSingleToolCall, hm]
  | some m =>
    cases hc : toolCallsOf m with
    | none => simp [take_action, lastSingleToolCall, hm, hc]
    | some tcs =>
      match tcs with
      | [] => simp [take_action, lastSingleToolCall, hm, hc]
      | [tc] => simp [take_action, lastSingleToolCall, hm, hc]
      | t1 :: t2 :: rest => simp [take_action, lastSingleToolCall, hm, hc]

/-- C1: in the compiled graph built by `build_memory_enhanced_graph` the
entry point is `triage_input`, and no walk from the entry point that
never passes through `human_node` reaches `send_email_node` or
`send_cal_invite_node`: a drafted email or calendar action is never
executed without an intervening human-review step. -/
theorem sends_require_intervening_human_review :
    build_memory_enhanced_graph.entry = GNode.triage_input ∧
    ∀ c : GNode,
      AvoidingPath build_memory_enhanced_graph GNode.human_node
        build_memory_enhanced_graph.entry c →
      c ≠ GNode.send_email_node ∧ c ≠ GNode.send_cal_invite_node := by
  refine ⟨rfl, fun c h => ⟨fun hc => ?_, fun hc => ?_⟩⟩
  · rcases avoiding_path_to_send_node _ _ h (Or.inl hc) with h1 | h1
    · rw [hc] at h1; exact absurd h1 (by decide)
    · exact absurd h1 (by decide)
  · rcases avoiding_path_to_send_node _ _ h (Or.inr hc) with h1 | h1
    · rw [hc] at h1; exact absurd h1 (by decide)
    · exact absurd h1 (by decide)

/-- C2: every triage classification is one of the three categories
no-action (`no`), needs-reply (`email`) and notify-only (`notify`), the
categories are pairwise distinct, and `route_after_triage` routes them to
exactly the three successor nodes: `no` to `mark_as_read_node`, `email`
to `draft_response` and `notify` to `notify`. -/
theorem triage_routes_three_categories :
    (∀ r : RespondTo,
      r = RespondTo.no ∨ r = RespondTo.email ∨ r = RespondTo.notify) ∧
    (RespondTo.no ≠ RespondTo.email ∧ RespondTo.no ≠ RespondTo.notify ∧
      RespondTo.email ≠ RespondTo.notify) ∧
    route_after_triage (some (RespondTo.response RespondTo.no)) =
      "mark_as_read_node" ∧
    route_after_triage (some (RespondTo.response RespondTo.email)) =
      "draft_response" ∧
    route_after_triage (some (RespondTo.response RespondTo.notify)) =
      "notify" := by
  refine ⟨fun r => ?_, by decide, by decide, by decide, by decide⟩
  cases r
  · exact Or.inl rfl
  · exact Or.inr (Or.inl rfl)
  · exact Or.inr (Or.inr rfl)

/-- C3: whenever the last message of the state carries exactly one tool
call, `take_action` returns the node the tool-call name determines
(`Question` to `send_message`, `ResponseEmailDraft` to `rewrite`,
`Ignore` to `mark_as_read_node`, `MeetingAssistant` to
`find_meeting_time`, `SendCalendarInvite` to `send_cal_invite`,
`ManageMemory` and `SearchMemory` to `process_memory_node`), and it
returns `"bad_tool_name"` exactly when either no single tool call exists
on the last message or its name is none of these. -/
theorem take_action_routes_by_tool_name (messages : List Msg) :
    (∀ tc : ToolCall, lastSingleToolCall messages = some tc →
      (tc.name = "Question" → take_action messages = "send_message") ∧
      (tc.name = "ResponseEmailDraft" → take_action messages = "rewrite") ∧
      (tc.name = "Ignore" → take_action messages = "mark_as_read_node") ∧
      (tc.name = "MeetingAssistant" → take_action messages = "find_meeting_time") ∧
      (tc.name = "SendCalendarInvite" → take_action messages = "send_cal_invite") ∧
      (tc.name = "ManageMemory" ∨ tc.name = "SearchMemory" →
        take_action messages = "process_memory_node")) ∧
    (take_action messages = "bad_tool_name" ↔
      ∀ tc : ToolCall, lastSingleToolCall messages = some tc →
        tc.name ∉ (["Question", "ResponseEmailDraft", "Ignore",
          "MeetingAssistant", "SendCalendarInvite", "ManageMemory",
          "SearchMemory"] : List String)) := by
  constructor
  · intro tc h
    simp only [take_action_eq, h]
    refine ⟨fun hn => ?_, fun hn => ?_, fun hn => ?_, fun hn => ?_,
      fun hn => ?_, fun hn => ?_⟩
    · rw [hn]; decide
    · rw [hn]; decide
    · rw [hn]; decide
    · rw [hn]; decide
    · rw [hn]; decide
    · rcases hn with hn | hn <;> (rw [hn]; decide)
  · rw [take_action_eq]
    cases h : lastSingleToolCall messages with
    | none => simp
    | some tc =>
      simp only []
      constructor
      · intro heq tc2 h2
        injection h2 with h2
        subst h2
        intro hmem
        simp only [List.mem_cons, List.not_mem_nil, or_false] at hmem
        rcases hmem with hn | hn | hn | hn | hn | hn | hn <;>
          (rw [hn] at heq; exact absurd heq (by decide))
      · intro hall
        have hnot := hall tc rfl
        unfold takeActionName
        split_ifs with h1 h2 h3 h4 h5 h6
        · exact absurd (by simp [h1]) hnot
        · exact absurd (by simp [h2]) hnot
        · exact absurd (by simp [h3]) hnot
        · exact absurd (by simp [h4]) hnot
        · exact absurd (by simp [h5]) hnot
        · rcases h6 with h6 | h6 <;> exact absurd (by simp [h6]) hnot
        · rfl

/-- C4: `update_general` writes a new prompt value under namespace
`(assistant_key,)` and key `prompt_key` if and only if the structured
model output has `update_prompt` set; when `update_prompt` is false no
store write happens at all, so the stored prompt is untouched and no
system-prompts memory entry is written. -/
theorem update_general_writes_iff_requested (state : ReflectionState)
    (output : GeneralResponse) :
    ((∃ p ∈ update_general state output,
        p.ns = [state.assistant_key] ∧ p.key = state.prompt_key) ↔
      output.update_prompt = true) ∧
    (output.update_prompt = false → update_general state output = []) := by
  cases h : output.update_prompt with
  | false =>
    constructor
    · simp [update_general, h]
    · intro _
      simp [update_general, h]
  | true =>
    constructor
    · constructor
      · intro _
        rfl
      · intro _
        refine ⟨{ ns := [state.assistant_key], key := state.prompt_key,
                  value := [("data", .s output.new_prompt)] }, ?_, rfl, rfl⟩
        simp [update_general, h]
    · intro hf
      exact absurd hf (by decide)

/-- C5, counterexample: the email-memory record of
`process_email_for_memory` (memory.py) is stored under the namespace
`(assistant_id, "email_memory")`, a pair rather than a triple of the form
(assistant id, category, user id). -/
theorem email_memory_namespace_is_a_pair :
    (EaiaMemory.process_email_for_memory
        { id := some "msg-1", subject := "s", from_email := "f",
          to_email := "t", page_content := "body" }
        { user_id := none, assistant_id := none }).map PutOp.ns =
      [["default", "email_memory"]] ∧
    (["default", "email_memory"] : List String).length ≠ 3 := by
  exact ⟨rfl, by decide⟩

/-- C5 as amended: `get_memory_namespace` always returns the triple
(assistant id, store type, user id); every record
`process_email_for_memory` (memory-module.py) stores and every record the
reflection writer stores as a fact memory lives under a length-3
namespace (the reflection writer additionally stores the prompt value
itself under the 1-tuple `(assistant_key,)`);
`retrieve_relevant_memories` reads the store only at length-3 namespaces.
The exception is the email-memory record of memory.py, stored under the
pair `(assistant id, "email_memory")`. -/
theorem memory_namespaces_are_triples (config : Config) (store_type : String)
    (email_subject : String) (summary : ConversationSummary)
    (contacts : List ContactInfo) (preferences : List EmailPreference)
    (extracted : List String) (dumpContact : ContactInfo → String)
    (dumpPreference : EmailPreference → String) (freshKey : Nat → String)
    (state : ReflectionState) (output : GeneralResponse)
    (s1 s2 : MemoryModule.SearchFn) (query : String) (limit : Nat)
    (email : EaiaMemory.EmailData) :
    (get_memory_namespace config store_type =
        [configAssistantId config, store_type, configUserId config] ∧
      (get_memory_namespace config store_type).length = 3) ∧
    (∀ p ∈ MemoryModule.process_email_for_memory email_subject summary
        contacts preferences extracted config dumpContact dumpPreference
        freshKey, p.ns.length = 3) ∧
    (∀ p ∈ update_general state output,
      p.ns = [state.assistant_key] ∨ p.ns.length = 3) ∧
    ((∀ (ns : List String) (q : String), ns.length = 3 → s1 ns q = s2 ns q) →
      MemoryModule.retrieve_relevant_memories s1 query config limit =
        MemoryModule.retrieve_relevant_memories s2 query config limit) ∧
    (∀ p ∈ EaiaMemory.process_email_for_memory email config,
      p.ns = [configAssistantId config, "email_memory"] ∧ p.ns.length = 2) := by
  refine ⟨⟨rfl, rfl⟩, ?_, ?_, ?_, ?_⟩
  · intro p hp
    simp only [MemoryModule.process_email_for_memory, List.mem_append,
      List.mem_map, List.mem_singleton] at hp
    rcases hp with ((hp | ⟨c, _, hp⟩) | ⟨q, _, hp⟩) | ⟨pr, _, hp⟩ <;>
      subst hp <;> rfl
  · intro p hp
    by_cases h : output.update_prompt
    · simp only [update_general, h, if_true, List.mem_cons,
        List.not_mem_nil, or_false] at hp
      rcases hp with hp | hp <;> subst hp
      · exact Or.inl rfl
      · exact Or.inr rfl
    · simp [update_general, h] at hp
  · intro h
    unfold MemoryModule.retrieve_relevant_memories MemoryModule.asearch
    rw [h (get_memory_namespace config "memories") query rfl,
      h (get_memory_namespace config "contacts") query rfl,
      h (get_memory_namespace config "preferences") query rfl]
  · intro p hp
    simp only [EaiaMemory.process_email_for_memory,
      List.mem_singleton] at hp
    subst hp
    exact ⟨rfl, rfl⟩

/-- C6, counterexample: after the interrupt resumes, `send_message`
raises (produces no state update) for a human response of type
`accept` and for one of type `edit`; it does not handle them. -/
theorem send_message_raises_on_accept_and_edit :
    HumanInbox.send_message
        { tool_call_id := "tc-1", tool_call_name := "Question", msg_id := "m-1" }
        "accept" "" = none ∧
    HumanInbox.send_message
        { tool_call_id := "tc-1", tool_call_name := "Question", msg_id := "m-1" }
        "edit" "" = none := by
  exact ⟨rfl, rfl⟩

/-- C6 as amended: upon resumption `send_message` produces a state update
exactly for the response types `response` (free text, yielding a tool
message) and `ignore` (yielding an assistant message with an `Ignore`
tool call); for every other response type — including `accept` and
`edit` — it raises instead of returning a message. -/
theorem send_message_handles_response_and_ignore_only
    (ctx : HumanInbox.SendMessageCtx) (response_type response_args : String) :
    ((HumanInbox.send_message ctx response_type response_args).isSome ↔
      response_type = "response" ∨ response_type = "ignore") ∧
    (HumanInbox.send_message ctx "response" response_args =
      some (.tool ctx.tool_call_name response_args ctx.tool_call_id)) ∧
    (HumanInbox.send_message ctx "ignore" response_args =
      some (.assistant "" ctx.msg_id
        [{ name := "Ignore", id := ctx.tool_call_id }])) := by
  refine ⟨?_, rfl, rfl⟩
  unfold HumanInbox.send_message
  split_ifs with h1 h2
  · simp [h1]
  · simp [h2]
  · simp [h1, h2]

/-- C7, counterexample: a preference whose type contains a space is stored
under key `preference_` followed by the lowercased type with spaces
replaced by underscores, not under `preference_` followed by the
lowercased type itself: for the extracted preference type
`"quick reply"` the put list carries the key `"preference_quick_reply"`
and no put carries the key `"preference_quick reply"`. -/
theorem preference_key_replaces_spaces :
    (MemoryModule.process_email_for_memory "subj"
        { subject := "subj", participants := [], key_points := [],
          action_items := none, follow_up_needed := false }
        [] [{ type := "quick reply", description := "d", confidence := 0 }] []
        { user_id := none, assistant_id := none }
        (fun _ => "cdump") (fun _ => "pdump")
        (fun n => "uuid-" ++ toString n)).map PutOp.key =
      ["uuid-0", "preference_quick_reply"] ∧
    ("preference_quick_reply" : String) ≠ "preference_quick reply" := by
  exact ⟨rfl, by decide⟩

/-- C7 as amended: `process_email_for_memory` (memory-module.py) performs
one put per stored record — the conversation summary in the memories
namespace, one record per extracted contact in the contacts namespace
under key `contact_` followed by the lowercased name with spaces replaced
by underscores, one record per extracted preference in the preferences
namespace under key `preference_` followed by the lowercased type with
spaces replaced by underscores, plus one per background-extracted
memory — and nothing else. -/
theorem process_email_stores_all_three_kinds (email_subject : String)
    (summary : ConversationSummary) (contacts : List ContactInfo)
    (preferences : List EmailPreference) (extracted : List String)
    (config : Config) (dumpContact : ContactInfo → String)
    (dumpPreference : EmailPreference → String) (freshKey : Nat → String) :
    (({ ns := get_memory_namespace config "memories", key := freshKey 0,
        value := [("content", MemValue.s (summaryContent email_subject summary))] } :
        PutOp) ∈
      MemoryModule.process_email_for_memory email_subject summary contacts
        preferences extracted config dumpContact dumpPreference freshKey) ∧
    (∀ c ∈ contacts,
      ({ ns := get_memory_namespace config "contacts",
         key := "contact_" ++ lowerUnderscore c.name,
         value := [("content", MemValue.s (dumpContact c))] } : PutOp) ∈
        MemoryModule.process_email_for_memory email_subject summary contacts
          preferences extracted config dumpContact dumpPreference freshKey) ∧
    (∀ pr ∈ preferences,
      ({ ns := get_memory_namespace config "preferences",
         key := "preference_" ++ lowerUnderscore pr.type,
         value := [("content", MemValue.s (dumpPreference pr))] } : PutOp) ∈
        MemoryModule.process_email_for_memory email_subject summary contacts
          preferences extracted config dumpContact dumpPreference freshKey) ∧
    ((MemoryModule.process_email_for_memory email_subject summary contacts
        preferences extracted config dumpContact dumpPreference
        freshKey).length =
      1 + contacts.length + preferences.length + extracted.length) := by
  refine ⟨?_, ?_, ?_, ?_⟩
  · simp [MemoryModule.process_email_for_memory]
  · intro c hc
    simp only [MemoryModule.process_email_for_memory, List.mem_append,
      List.mem_map, List.mem_singleton]
    exact Or.inl (Or.inl (Or.inr ⟨c, hc, rfl⟩))
  · intro pr hpr
    simp only [MemoryModule.process_email_for_memory, List.mem_append,
      List.mem_map, List.mem_singleton]
    exact Or.inl (Or.inr ⟨pr, hpr, rfl⟩)
  · simp [MemoryModule.process_email_for_memory, List.enum_length]
    omega

/-- C8: for every query and limit `n`, `retrieve_relevant_memories`
returns at most `3 * n` entries — at most `n` from each of the memories,
contacts and preferences namespaces, concatenated in that fixed order,
each entry prefixed `Memory: `, `Contact: ` or `Preference: ` according
to the namespace it came from — and it is not bounded by `n` overall. -/
theorem retrieve_relevant_memories_bounded_by_three_limits
    (store : MemoryModule.SearchFn) (query : String) (config : Config)
    (limit : Nat) :
    (MemoryModule.retrieve_relevant_memories store query config limit).length ≤
      3 * limit ∧
    (∃ ms cs ps : List String,
      MemoryModule.retrieve_relevant_memories store query config limit =
        ms ++ cs ++ ps ∧
      ms.length ≤ limit ∧ cs.length ≤ limit ∧ ps.length ≤ limit ∧
      (∀ x ∈ ms, ∃ body : String, x = "Memory: " ++ body) ∧
      (∀ x ∈ cs, ∃ body : String, x = "Contact: " ++ body) ∧
      (∀ x ∈ ps, ∃ body : String, x = "Preference: " ++ body)) ∧
    (∃ (s : MemoryModule.SearchFn) (q : String) (c : Config) (n : Nat),
      n < (MemoryModule.retrieve_relevant_memories s q c n).length) := by
  have hlen : ∀ (ns : List String) (lim : Nat),
      (MemoryModule.asearch store ns query lim).length ≤ lim := by
    intro ns lim
    simp only [MemoryModule.asearch, List.length_take]
    omega
  refine ⟨?_, ?_, ?_⟩
  · have h1 := hlen (get_memory_namespace config "memories") limit
    have h2 := hlen (get_memory_namespace config "contacts") limit
    have h3 := hlen (get_memory_namespace config "preferences") limit
    simp only [MemoryModule.retrieve_relevant_memories, List.length_append,
      List.length_map]
    omega
  · refine ⟨(MemoryModule.asearch store (get_memory_namespace config "memories")
        query limit).map (fun memory => "Memory: " ++ memory.content.getD ""),
      (MemoryModule.asearch store (get_memory_namespace config "contacts")
        query limit).map (fun contact => "Contact: " ++ contact.content.getD ""),
      (MemoryModule.asearch store (get_memory_namespace config "preferences")
        query limit).map
          (fun preference => "Preference: " ++ preference.content.getD ""),
      ?_, ?_, ?_, ?_, ?_, ?_, ?_⟩
    · rfl
    · simpa using hlen (get_memory_namespace config "memories") limit
    · simpa using hlen (get_memory_namespace config "contacts") limit
    · simpa using hlen (get_memory_namespace config "preferences") limit
    · intro x hx
      rcases List.mem_map.mp hx with ⟨item, _, hx⟩
      exact ⟨item.content.getD "", hx.symm⟩
    · intro x hx
      rcases List.mem_map.mp hx with ⟨item, _, hx⟩
      exact ⟨item.content.getD "", hx.symm⟩
    · intro x hx
      rcases List.mem_map.mp hx with ⟨item, _, hx⟩
      exact ⟨item.content.getD "", hx.symm⟩
  · refine ⟨fun _ _ => [{ content := some "x" }], "q",
      { user_id := none, assistant_id := none }, 1, ?_⟩
    decide

/-- The retry loop of `draft_response` invokes the model at most
`fuel + 1` times. -/
lemma draftLoopGo_count_le (model : List DraftResponse.ChatMsg → DraftResponse.DraftResp)
    (fuel : Nat) (messages : List DraftResponse.ChatMsg) :
    (DraftResponse.draftLoopGo model fuel messages).2 ≤ fuel + 1 := by
  induction fuel generalizing messages with
  | zero => simp [DraftResponse.draftLoopGo]
  | succ f ih =>
    simp only [DraftResponse.draftLoopGo]
    by_cases h : (model messages).tool_calls.length = 1
    · simp [h]
    · simp only [h, if_false]
      exact Nat.succ_le_succ (ih _)

/-- When every model response fails the single-tool-call test, the retry
loop makes exactly `fuel + 1` invocations and ends on a failing
response. -/
lemma draftLoopGo_all_bad (model : List DraftResponse.ChatMsg → DraftResponse.DraftResp)
    (hbad : ∀ ms, (model ms).tool_calls.length ≠ 1) (fuel : Nat)
    (messages : List DraftResponse.ChatMsg) :
    (DraftResponse.draftLoopGo model fuel messages).2 = fuel + 1 ∧
    (DraftResponse.draftLoopGo model fuel messages).1.tool_calls.length ≠ 1 := by
  induction fuel generalizing messages with
  | zero => exact ⟨rfl, hbad messages⟩
  | succ f ih =>
    simp only [DraftResponse.draftLoopGo, hbad messages, if_false]
    exact ⟨by rw [(ih _).1], (ih _).2⟩

/-- C9: `draft_response` invokes the model at most five times per call —
once immediately when the first response carries exactly one tool call,
exactly five times when every response fails the test — and after the
fifth failure it stops retrying, storing the last response as the draft
and appending it to the messages even though it does not carry exactly
one tool call. -/
theorem draft_response_invokes_model_at_most_five_times
    (model : List DraftResponse.ChatMsg → DraftResponse.DraftResp)
    (messages : List DraftResponse.ChatMsg) :
    ((DraftResponse.draftLoopGo model 4 messages).2 ≤ 5) ∧
    ((model messages).tool_calls.length = 1 →
      DraftResponse.draftLoopGo model 4 messages = (model messages, 1)) ∧
    ((∀ ms, (model ms).tool_calls.length ≠ 1) →
      (DraftResponse.draftLoopGo model 4 messages).2 = 5 ∧
      (DraftResponse.draftLoopGo model 4 messages).1.tool_calls.length ≠ 1) ∧
    (DraftResponse.draft_response model messages =
      { draft := (DraftResponse.draftLoopGo model 4 messages).1,
        messages := [(DraftResponse.draftLoopGo model 4 messages).1] }) := by
  refine ⟨draftLoopGo_count_le model 4 messages, ?_, ?_, rfl⟩
  · intro h
    simp [DraftResponse.draftLoopGo, h]
  · intro hbad
    exact draftLoopGo_all_bad model hbad 4 messages

/-- The last element of a list extended by one element. -/
lemma getLast?_snoc {α : Type} (l : List α) (a : α) :
    (l ++ [a]).getLast? = some a := by
  rw [List.getLast?_append_cons]
  rfl

/-- C10: the three routing functions are total and never raise.
`route_after_triage` always returns one of its three declared labels,
with `notify` for a state whose triage response is missing or
unrecognized; `take_action` always returns one of its seven declared
labels, with `bad_tool_name` for an empty message list, a last message
without tool calls, or a tool-call list whose length is not one;
`enter_after_human` always returns one of its four declared labels,
returning `mark_as_read_node` for an empty message list when the triage
response is `notify` and `draft_response` in every other failure case
(empty messages otherwise, a last message without readable tool calls,
an empty tool-call list, an unrecognized tool name). -/
theorem routing_functions_total_with_fallbacks :
    (∀ t : Option String, route_after_triage t ∈
      (["draft_response", "mark_as_read_node", "notify"] : List String)) ∧
    (route_after_triage none = "notify") ∧
    (∀ s : String, s ∉ (["email", "no", "notify", "question"] : List String) →
      route_after_triage (some s) = "notify") ∧
    (∀ ms : List Msg, take_action ms ∈
      (["send_message", "rewrite", "mark_as_read_node", "find_meeting_time",
        "send_cal_invite", "process_memory_node",
        "bad_tool_name"] : List String)) ∧
    (take_action [] = "bad_tool_name") ∧
    (∀ ms : List Msg, take_action (ms ++ [Msg.raw none]) = "bad_tool_name") ∧
    (∀ (ms : List Msg) (tcs : List ToolCall), tcs.length ≠ 1 →
      take_action (ms ++ [Msg.base tcs]) = "bad_tool_name") ∧
    (∀ (t : Option String) (ms : List Msg), enter_after_human t ms ∈
      (["mark_as_read_node", "draft_response", "send_email_node",
        "send_cal_invite_node"] : List String)) ∧
    (enter_after_human (some "notify") [] = "mark_as_read_node") ∧
    (∀ t : Option String, t ≠ some "notify" →
      enter_after_human t [] = "draft_response") ∧
    (∀ (t : Option String) (ms : List Msg),
      enter_after_human t (ms ++ [Msg.raw none]) = "draft_response") ∧
    (∀ (t : Option String) (ms : List Msg),
      enter_after_human t (ms ++ [Msg.raw (some [])]) = "draft_response") ∧
    (∀ (t : Option String) (ms : List Msg) (tc : ToolCall)
      (rest : List ToolCall),
      tc.name ∉ (["ResponseEmailDraft", "SendCalendarInvite",
        "Ignore"] : List String) →
      enter_after_human t (ms ++ [Msg.raw (some (tc :: rest))]) =
        "draft_response") := by
  refine ⟨?_, rfl, ?_, ?_, rfl, ?_, ?_, ?_, rfl, ?_, ?_, ?_, ?_⟩
  · intro t
    cases t with
    | none => simp [route_after_triage]
    | some s =>
      unfold route_after_triage
      dsimp only
      split_ifs <;> simp
  · intro s hs
    unfold route_after_triage
    dsimp only
    split_ifs with h1 h2 h3 h4
    · exact absurd (by simp [h1]) hs
    · exact absurd (by simp [h2]) hs
    · exact absurd (by simp [h3]) hs
    · exact absurd (by simp [h4]) hs
    · rfl
  · intro ms
    rw [take_action_eq]
    cases lastSingleToolCall ms with
    | none => simp
    | some tc =>
      dsimp only
      unfold takeActionName
      split_ifs <;> simp
  · intro ms
    simp [take_action, getLast?_snoc, toolCallsOf]
  · intro ms tcs h
    match tcs with
    | [] => simp [take_action, getLast?_snoc, toolCallsOf]
    | [tc] => exact absurd rfl h
    | t1 :: t2 :: rest => simp [take_action, getLast?_snoc, toolCallsOf]
  · intro t ms
    unfold enter_after_human
    cases hm : ms.getLast? with
    | none =>
      cases t with
      | none => simp
      | some r =>
        dsimp only
        split_ifs <;> simp
    | some m =>
      cases m with
      | base tcs => simp
      | raw o =>
        match o with
        | none => simp
        | some [] => simp
        | some (tc :: rest) =>
          dsimp only
          split_ifs <;> simp
  · intro t ht
    cases t with
    | none => rfl
    | some r =>
      have hr : r ≠ "notify" := fun h => ht (by rw [h])
      simp [enter_after_human, hr]
  · intro t ms
    simp [enter_after_human, getLast?_snoc]
  · intro t ms
    simp [enter_after_human, getLast?_snoc]
  · intro t ms tc rest hname
    simp only [enter_after_human, getLast?_snoc]
    split_ifs with h1 h2 h3 h4
    · exact absurd (by simp [h1]) hname
    · exact absurd (by simp [h2]) hname
    · exact absurd (by simp [h3]) hname
    · rfl
    · rfl

end Eaia
